import Mathlib

/-!
Shallow embedding of the HayDay chat system core (src/server.js and
src/data/database.js) and verification of its specification claims.

Modelling conventions:
- JS objects used as string-keyed maps (the sessions file, the analytics
  file, the in-memory auth-code map) are modelled as association lists
  `List (String × β)` with `alookup` / `aset` / `aerase` mirroring
  property read, property assignment and `delete`.
- Timestamps (`Date.now()` values) are natural numbers passed explicitly.
- JS numbers appearing in scores and confidences are modelled as `ℚ`.
- `crypto.randomUUID()` / `crypto.randomBytes(...)` values are passed in
  as explicit parameters; uniqueness of a fresh id is a hypothesis.
- The sha256 `hashToken` function is an arbitrary `String → String`
  parameter.
- `JSON.parse` / `JSON.stringify` in the generic file reader are
  arbitrary `parse` / `stringify` parameters; `JSON.parse` applied to the
  empty string throws, so a faithful `parse` maps `""` to `none`.
- Fallible operations return `Except`; stateful operations return the
  new state explicitly.
-/

/-- Association list lookup: first binding of the key, mirroring reading a
property of a JS object keyed by strings. -/
def alookup {β : Type} (k : String) : List (String × β) → Option β
  | [] => none
  | (k', v) :: rest => if k' = k then some v else alookup k rest

/-- Removal of a key, mirroring `delete obj[k]`. -/
def aerase {β : Type} (k : String) (l : List (String × β)) : List (String × β) :=
  l.filter (fun p => p.1 ≠ k)

/-- Property assignment `obj[k] = v` (replaces any previous binding). -/
def aset {β : Type} (k : String) (v : β) (l : List (String × β)) : List (String × β) :=
  (k, v) :: aerase k l

/-! ## Knowledge base matcher (src/server.js, `ChatBotBrain`) -/

/-- A knowledge-base pattern as stored in `knowledge-base.json` /
`defaultKnowledgeBase` in src/server.js. -/
structure Pattern where
  keywords : List String
  response : String
  confidence : ℚ
  usage : ℕ
  deriving DecidableEq

/-- JS `String.prototype.toLowerCase`, modelled character-wise. -/
def lowerStr (s : String) : String :=
  ⟨s.data.map Char.toLower⟩

/-- JS `String.prototype.includes`: substring containment, scanning from
each suffix of the haystack. -/
def includesSub : List Char → List Char → Bool
  | hay, needle =>
    if needle.isPrefixOf hay then true
    else
      match hay with
      | [] => false
      | _ :: t => includesSub t needle

/-- `hay.includes(sub)` on strings. -/
def strIncludes (hay sub : String) : Bool :=
  includesSub hay.data sub.data

/-- Number of keywords of `p` contained in the lowercased message
(the `score` accumulated by the keyword loop in `analyzeMessage`). -/
def matchCount (message : String) (p : Pattern) : ℕ :=
  p.keywords.countP (fun keyword => strIncludes (lowerStr message) (lowerStr keyword))

/-- The score `(score / pattern.keywords.length) * pattern.confidence`
computed in `analyzeMessage` for a pattern with at least one keyword hit. -/
def patternScore (message : String) (p : Pattern) : ℚ :=
  ((matchCount message p : ℚ) / (p.keywords.length : ℚ)) * p.confidence

/-- `this.confidenceThreshold` set in the `ChatBotBrain` constructor. -/
def confidenceThreshold : ℚ := 7 / 10

/-- Result of `analyzeMessage`. The source stores in `match` the spread of
the winning pattern together with its `calculatedConfidence`; here that is
a pair.  (`match` is a Lean keyword, hence the field name
`matchedPattern`.) -/
structure AnalyzeOut where
  matchedPattern : Option (Pattern × ℚ)
  confidence : ℚ
  shouldEscalate : Bool
  deriving DecidableEq

/-- The `for (const pattern of this.knowledgeBase)` loop of
`analyzeMessage`, carrying `bestMatch` and `highestScore`. -/
def analyzeLoop (message : String) : List Pattern → Option (Pattern × ℚ) → ℚ → Option (Pattern × ℚ) × ℚ
  | [], best, highest => (best, highest)
  | p :: rest, best, highest =>
    let score := matchCount message p
    if 0 < score then
      let conf := patternScore message p
      if highest < conf then analyzeLoop message rest (some (p, conf)) conf
      else analyzeLoop message rest best highest
    else analyzeLoop message rest best highest

/-- `ChatBotBrain.analyzeMessage` (src/server.js lines 201-228). -/
def analyzeMessage (knowledgeBase : List Pattern) (message : String) : AnalyzeOut :=
  let r := analyzeLoop message knowledgeBase none 0
  { matchedPattern := r.1
    confidence := r.2
    shouldEscalate := decide (r.2 < confidenceThreshold) }

/-- Modelled from the spec: the patterns whose lowercased-keyword
containment count in the lowercased message is positive. -/
def matchedPatterns (knowledgeBase : List Pattern) (message : String) : List Pattern :=
  knowledgeBase.filter (fun p => decide (0 < matchCount message p))

/-- Modelled from the spec: the maximum score among matched patterns
(0 when none matched). -/
def maxScore (knowledgeBase : List Pattern) (message : String) : ℚ :=
  ((matchedPatterns knowledgeBase message).map (patternScore message)).foldr max 0

/-- Modelled from the spec: the reference scorer of claim C1 — the match is
the maximum-scoring pattern with positive containment count, ties keeping
the first in list order (`find?` returns the first element attaining the
maximum); confidence is the maximum score, 0 when no pattern matched;
escalation exactly when that confidence is below the fixed threshold. -/
def specAnalyze (knowledgeBase : List Pattern) (message : String) : AnalyzeOut :=
  let best := (matchedPatterns knowledgeBase message).find?
    (fun p => decide (patternScore message p = maxScore knowledgeBase message))
  { matchedPattern := best.map (fun q => (q, patternScore message q))
    confidence := maxScore knowledgeBase message
    shouldEscalate := decide (maxScore knowledgeBase message < confidenceThreshold) }

/-! ## AI processor and routing (src/server.js, `AIProcessor` and the
`POST /api/chat/send` handler) -/

/-- The relevant part of a successful completion-API response: the reply
text and `usage.total_tokens`. -/
structure LMOut where
  content : String
  totalTokens : ℕ
  deriving DecidableEq

/-- Result shape of `AIProcessor.processMessage`. -/
structure AIOut where
  response : String
  confidence : ℚ
  tokensUsed : ℕ
  deriving DecidableEq

/-- Canned reply when no OpenAI client is configured. -/
def aiUnavailableReply : String :=
  "AI sistemi şu anda kullanılamıyor. Lütfen Sorular & İletişim sayfamızdan bize ulaşın."

/-- Canned apology returned from the `catch` block of `processMessage`. -/
def aiApologyReply : String :=
  "Üzgünüm, şu anda teknik bir sorun yaşıyorum. Lütfen biraz sonra tekrar deneyin."

/-- `AIProcessor.processMessage` (src/server.js lines 237-285).  The
external call outcome (success, or failure/timeout rejection) is the
`llm` argument; the `catch` branch maps any failure to the canned
apology with confidence 0.3 and zero tokens. -/
def processMessage (available : Bool) (llm : Except String LMOut) (message : String) : AIOut :=
  if available = false then
    { response := aiUnavailableReply, confidence := 3 / 10, tokensUsed := 0 }
  else
    match llm with
    | Except.ok completion =>
      { response := completion.content, confidence := 85 / 100, tokensUsed := completion.totalTokens }
    | Except.error _ =>
      { response := aiApologyReply, confidence := 3 / 10, tokensUsed := 0 }

/-- Canned default when neither the rule stage nor an AI backend answers. -/
def defaultContactReply : String :=
  "Size yardımcı olmaya çalışıyorum. Sorular & İletişim sayfamızdan bize ulaşabilirsiniz."

/-- Reply/role/confidence/tokensUsed selection of the `POST /api/chat/send`
handler (src/server.js lines 401-428). -/
structure RouteOut where
  reply : String
  role : String
  confidence : ℚ
  tokensUsed : Option ℕ
  deriving DecidableEq

/-- The routing logic of the send handler: rule stage if confident,
otherwise the AI stage when available, otherwise the default reply.
`conf0` models `botAnalysis.confidence || 0.85`. -/
def routeReply (analysis : AnalyzeOut) (aiAvailable : Bool) (llm : Except String LMOut)
    (message : String) : RouteOut :=
  let conf0 : ℚ := if analysis.confidence = 0 then 85 / 100 else analysis.confidence
  match analysis.shouldEscalate, analysis.matchedPattern with
  | false, some m =>
    { reply := m.1.response, role := "chatbot", confidence := conf0, tokensUsed := none }
  | _, _ =>
    if aiAvailable then
      let aiResult := processMessage aiAvailable llm message
      { reply := aiResult.response, role := "ai", confidence := aiResult.confidence
        tokensUsed := some aiResult.tokensUsed }
    else
      { reply := defaultContactReply, role := "chatbot", confidence := conf0, tokensUsed := none }

/-! ## Locked file store generic JSON read (src/data/database.js,
`readJsonUnlocked`) -/

/-- `readJsonUnlocked` (src/data/database.js lines 66-80), generic in the
stored value type.  `file` is the file content (`none` when the file does
not exist, which surfaces as an ENOENT read error).  The result carries
the returned value and the file content after the call; a parse failure
on non-empty content is the thrown `JSON.parse` error.  Note the source
returns `defaultValue` without writing when the file exists but is empty
(`if (!raw)`). -/
def readJsonUnlocked {α : Type} (parse : String → Option α) (stringify : α → String)
    (file : Option String) (defaultValue : α) : Except String (α × Option String) :=
  match file with
  | none => Except.ok (defaultValue, some (stringify defaultValue))
  | some raw =>
    if raw = "" then Except.ok (defaultValue, some raw)
    else
      match parse raw with
      | some value => Except.ok (value, some raw)
      | none => Except.error "JSON parse error"

/-- A concrete stand-in parser used to instantiate `readJsonUnlocked` at
a specific input; like `JSON.parse`, it rejects the empty string. -/
def natStringParse (s : String) : Option ℕ :=
  if s = "0" then some 0 else if s = "7" then some 7 else none

/-! ## Message log (src/data/database.js) -/

/-- A stored message record. -/
structure Message where
  id : String
  timestamp : ℕ
  clientId : String
  role : String
  content : String
  confidence : Option ℚ
  tokensUsed : Option ℕ
  deriving DecidableEq

/-- The caller-supplied part of a message (everything but the id assigned
by `addMessage`). -/
structure MessageInput where
  timestamp : ℕ
  clientId : String
  role : String
  content : String
  confidence : Option ℚ
  tokensUsed : Option ℕ
  deriving DecidableEq

/-- `addMessage` (src/data/database.js lines 119-128): build the record
with the freshly generated id (`newId` stands for `crypto.randomUUID()`),
append it to the log, return it. -/
def addMessage (newId : String) (message : MessageInput) (log : List Message) :
    Message × List Message :=
  let record : Message :=
    { id := newId, timestamp := message.timestamp, clientId := message.clientId
      role := message.role, content := message.content
      confidence := message.confidence, tokensUsed := message.tokensUsed }
  (record, log ++ [record])

/-- The comparator `(a, b) => a.timestamp - b.timestamp` as an order. -/
def msgLE (a b : Message) : Prop := a.timestamp ≤ b.timestamp

instance : DecidableRel msgLE :=
  fun a b => inferInstanceAs (Decidable (a.timestamp ≤ b.timestamp))

instance : IsTotal Message msgLE :=
  ⟨fun a b => Nat.le_total a.timestamp b.timestamp⟩

instance : IsTrans Message msgLE :=
  ⟨fun _ _ _ hab hbc => Nat.le_trans hab hbc⟩

/-- `getMessagesByClient` (src/data/database.js lines 130-137): filter by
client, sort ascending by timestamp. -/
def getMessagesByClient (clientId : String) (log : List Message) : List Message :=
  List.insertionSort msgLE (log.filter (fun msg => msg.clientId == clientId))

/-- `getMessagesAfter` (src/data/database.js lines 139-146): same filter
plus `timestamp > afterTimestamp`. -/
def getMessagesAfter (clientId : String) (afterTimestamp : ℕ) (log : List Message) : List Message :=
  List.insertionSort msgLE
    (log.filter (fun msg => msg.clientId == clientId && decide (afterTimestamp < msg.timestamp)))

/-- The `GET /api/chat/poll/:clientId` handler body (src/server.js lines
470-487): the new messages and the `lastTimestamp` field, which is
`Math.max` of the returned timestamps when any, else the echoed `after`. -/
def pollResponse (clientId : String) (afterTimestamp : ℕ) (log : List Message) :
    List Message × ℕ :=
  let newMessages := getMessagesAfter clientId afterTimestamp log
  (newMessages,
    if 0 < newMessages.length then (newMessages.map (fun m => m.timestamp)).foldr max 0
    else afterTimestamp)

/-! ## Analytics counters (src/data/database.js) -/

/-- A per-date analytics entry.  Entries written by `incrementAnalytics`
carry no `date` property; the zeroed entry returned by
`getAnalyticsForDate` for an absent date does.  The optional `date` field
models that difference in shape. -/
structure AnalyticsEntry where
  date : Option String
  total : ℕ
  chatbot : ℕ
  ai : ℕ
  admin : ℕ
  deriving DecidableEq

/-- The literal `{ total: 0, chatbot: 0, ai: 0, admin: 0 }` used by
`incrementAnalytics` when the date is absent. -/
def zeroEntry : AnalyticsEntry :=
  { date := none, total := 0, chatbot := 0, ai := 0, admin := 0 }

/-- The mutation performed by `incrementAnalytics` on the date's entry:
`total += 1`, plus the matching role counter. -/
def stepEntry (entry : AnalyticsEntry) (role : String) : AnalyticsEntry :=
  let entry := { entry with total := entry.total + 1 }
  let entry := if role = "chatbot" then { entry with chatbot := entry.chatbot + 1 } else entry
  let entry := if role = "ai" then { entry with ai := entry.ai + 1 } else entry
  if role = "admin" then { entry with admin := entry.admin + 1 } else entry

/-- `incrementAnalytics` (src/data/database.js lines 148-159). -/
def incrementAnalytics (date role : String) (analytics : List (String × AnalyticsEntry)) :
    List (String × AnalyticsEntry) :=
  aset date (stepEntry ((alookup date analytics).getD zeroEntry) role) analytics

/-- `getAnalyticsForDate` (src/data/database.js lines 161-166): the stored
entry, or `{ date, total: 0, chatbot: 0, ai: 0, admin: 0 }` when absent;
the stored map is returned unchanged (nothing is written back). -/
def getAnalyticsForDate (date : String) (analytics : List (String × AnalyticsEntry)) :
    AnalyticsEntry × List (String × AnalyticsEntry) :=
  ((alookup date analytics).getD
      { date := some date, total := 0, chatbot := 0, ai := 0, admin := 0 },
    analytics)

/-- Proof-side description of an entry after a sequence of increments. -/
def accumEntry (e : AnalyticsEntry) (roles : List String) : AnalyticsEntry :=
  { date := e.date
    total := e.total + roles.length
    chatbot := e.chatbot + roles.count "chatbot"
    ai := e.ai + roles.count "ai"
    admin := e.admin + roles.count "admin" }

/-! ## Admin sessions (src/data/database.js) -/

/-- A stored admin session (value under the token hash key in the
sessions file). -/
structure Session where
  telegramId : String
  createdAt : ℕ
  expiresAt : ℕ
  lastActivity : ℕ
  deriving DecidableEq

/-- The metadata object returned by a successful `getAdminSession`; it
contains the token hash, never the raw token. -/
structure SessionView where
  tokenHash : String
  telegramId : String
  createdAt : ℕ
  expiresAt : ℕ
  lastActivity : ℕ
  deriving DecidableEq

/-- `createAdminSession` (src/data/database.js lines 208-226).  `hash` is
`hashToken` (sha256); `token` stands for the generated random token; the
result is the `{ token, expiresAt }` object plus the new sessions map. -/
def createAdminSession (hash : String → String) (token telegramId : String)
    (now ttlMs : ℕ) (sessions : List (String × Session)) :
    (String × ℕ) × List (String × Session) :=
  let tokenHash := hash token
  let expiresAt := now + ttlMs
  ((token, expiresAt),
    aset tokenHash
      { telegramId := telegramId, createdAt := now, expiresAt := expiresAt, lastActivity := now }
      sessions)

/-- `getAdminSession` (src/data/database.js lines 228-257).  A falsy
(empty) token is rejected up front; an entry with `expiresAt < now` is
deleted and reported absent; otherwise `lastActivity` is refreshed and
the metadata returned. -/
def getAdminSession (hash : String → String) (token : String) (now : ℕ)
    (sessions : List (String × Session)) : Option SessionView × List (String × Session) :=
  if token = "" then (none, sessions)
  else
    let tokenHash := hash token
    match alookup tokenHash sessions with
    | none => (none, sessions)
    | some session =>
      if session.expiresAt < now then (none, aerase tokenHash sessions)
      else
        (some { tokenHash := tokenHash, telegramId := session.telegramId
                createdAt := session.createdAt, expiresAt := session.expiresAt
                lastActivity := now },
          aset tokenHash { session with lastActivity := now } sessions)

/-! ## Telegram auth codes (src/server.js, `TelegramManager`) -/

/-- An in-memory auth-code entry (`this.authCodes` values). -/
structure AuthCode where
  code : String
  expires : ℕ
  deriving DecidableEq

/-- The state mutation of `sendAuthCode` (src/server.js lines 295-313):
store the generated code with a 5-minute expiry. -/
def sendAuthCode (telegramId code : String) (now : ℕ)
    (authCodes : List (String × AuthCode)) : List (String × AuthCode) :=
  aset telegramId { code := code, expires := now + 5 * 60 * 1000 } authCodes

/-- `verifyAuthCode` (src/server.js lines 315-327). -/
def verifyAuthCode (telegramId code : String) (now : ℕ)
    (authCodes : List (String × AuthCode)) : Bool × List (String × AuthCode) :=
  match alookup telegramId authCodes with
  | none => (false, authCodes)
  | some authData =>
    if authData.expires < now then (false, aerase telegramId authCodes)
    else if authData.code = code then (true, aerase telegramId authCodes)
    else (false, authCodes)

/-- A concrete one-pattern knowledge base used to instantiate theorems. -/
def demoKb : List Pattern :=
  [{ keywords := ["merhaba", "selam"], response := "Merhaba! Size nasıl yardımcı olabilirim?"
     confidence := 1, usage := 0 }]

/-- A concrete message input used to instantiate theorems. -/
def demoInput : MessageInput :=
  { timestamp := 5, clientId := "client-A", role := "user", content := "merhaba"
    confidence := none, tokensUsed := none }

/-- A concrete, deliberately unsorted message log used to instantiate
theorems. -/
def demoLog : List Message :=
  [ { id := "i2", timestamp := 20, clientId := "c", role := "chatbot", content := "yo"
      confidence := none, tokensUsed := none }
  , { id := "i1", timestamp := 10, clientId := "c", role := "user", content := "hi"
      confidence := none, tokensUsed := none }
  , { id := "i3", timestamp := 30, clientId := "d", role := "user", content := "x"
      confidence := none, tokensUsed := none } ]

/-! ## Association list lemmas -/

theorem alookup_aerase_self {β : Type} (k : String) (l : List (String × β)) :
    alookup k (aerase k l) = none := by
  induction l with
  | nil => rfl
  | cons p rest ih =>
    obtain ⟨a, b⟩ := p
    by_cases h : a = k
    · simpa [aerase, h] using ih
    · simpa [aerase, alookup, h] using ih

theorem alookup_aset_self {β : Type} (k : String) (v : β) (l : List (String × β)) :
    alookup k (aset k v l) = some v := by
  simp [aset, alookup]

theorem alookup_aerase_ne {β : Type} (k k' : String) (l : List (String × β)) (h : k' ≠ k) :
    alookup k' (aerase k l) = alookup k' l := by
  induction l with
  | nil => rfl
  | cons p rest ih =>
    obtain ⟨a, b⟩ := p
    by_cases hp : a = k
    · have hpk : ¬ a = k' := by
        rw [hp]; exact fun hk => h hk.symm
      have he : aerase k ((a, b) :: rest) = aerase k rest := by simp [aerase, hp]
      rw [he, ih]
      simp [alookup, hpk]
    · have he : aerase k ((a, b) :: rest) = (a, b) :: aerase k rest := by simp [aerase, hp]
      rw [he]
      simp only [alookup]
      rw [ih]

/-! ## Claim C3 — readJSON semantics -/

/-- Claim C3 counterexample: the claim demands an error for every existing
file whose content is not valid JSON, but for an existing empty file
(content `""`, not valid JSON — `JSON.parse` of the empty string throws)
`readJsonUnlocked` silently returns the default instead of raising:
witnessed with a concrete parser that, like `JSON.parse`, rejects `""`. -/
theorem readJsonUnlocked_empty_counterexample :
    natStringParse "" = none ∧
    readJsonUnlocked natStringParse (fun n => toString n) (some "") 7
      = Except.ok (7, some "") :=
  ⟨rfl, rfl⟩

/-- Claim C3 (amended): if the file is absent, `readJsonUnlocked` writes
the default and returns it; if the file exists but is empty it returns
the default without writing and without raising; if the file exists with
non-empty content that parses, it returns the parsed value; and for
non-empty content that does not parse it raises an error. -/
theorem readJsonUnlocked_spec {α : Type} (parse : String → Option α) (stringify : α → String)
    (d : α) :
    (readJsonUnlocked parse stringify none d = Except.ok (d, some (stringify d))) ∧
    (readJsonUnlocked parse stringify (some "") d = Except.ok (d, some "")) ∧
    (∀ raw v, raw ≠ "" → parse raw = some v →
      readJsonUnlocked parse stringify (some raw) d = Except.ok (v, some raw)) ∧
    (∀ raw, raw ≠ "" → parse raw = none →
      readJsonUnlocked parse stringify (some raw) d = Except.error "JSON parse error") := by
  refine ⟨rfl, rfl, ?_, ?_⟩
  · intro raw v hraw hp
    simp [readJsonUnlocked, hraw, hp]
  · intro raw hraw hp
    simp [readJsonUnlocked, hraw, hp]

/-- Witness for the amended C3 theorem at concrete inputs. -/
theorem readJsonUnlocked_spec_witness :
    (readJsonUnlocked natStringParse (fun n => toString n) none 7
      = Except.ok (7, some (toString 7))) ∧
    (readJsonUnlocked natStringParse (fun n => toString n) (some "") 7
      = Except.ok (7, some "")) ∧
    (("7" : String) ≠ "" ∧ natStringParse "7" = some 7 ∧
      readJsonUnlocked natStringParse (fun n => toString n) (some "7") 7
        = Except.ok (7, some "7")) ∧
    (("x" : String) ≠ "" ∧ natStringParse "x" = none ∧
      readJsonUnlocked natStringParse (fun n => toString n) (some "x") 7
        = Except.error "JSON parse error") := by
  obtain ⟨h1, h2, h3, h4⟩ := readJsonUnlocked_spec natStringParse (fun n => toString n) 7
  exact ⟨h1, h2, ⟨by decide, by decide, h3 "7" 7 (by decide) (by decide)⟩,
    ⟨by decide, by decide, h4 "x" (by decide) (by decide)⟩⟩

/-! ## Claim C7 — one-time code verification -/

/-- Claim C7: `verifyAuthCode` returns false when no code is stored;
after the stored code's 5-minute expiry has passed it deletes the code
and returns false even when the digits match; before expiry an exact
match deletes the code and returns true; a mismatch before expiry returns
false and leaves the stored code in place. -/
theorem verifyAuthCode_spec (telegramId sent attempt : String) (now₀ now : ℕ)
    (st : List (String × AuthCode)) :
    (alookup telegramId st = none →
      verifyAuthCode telegramId attempt now st = (false, st)) ∧
    (now₀ + 5 * 60 * 1000 < now →
      verifyAuthCode telegramId attempt now (sendAuthCode telegramId sent now₀ st)
        = (false, aerase telegramId (sendAuthCode telegramId sent now₀ st))) ∧
    (now ≤ now₀ + 5 * 60 * 1000 → attempt = sent →
      verifyAuthCode telegramId attempt now (sendAuthCode telegramId sent now₀ st)
        = (true, aerase telegramId (sendAuthCode telegramId sent now₀ st))) ∧
    (now ≤ now₀ + 5 * 60 * 1000 → attempt ≠ sent →
      verifyAuthCode telegramId attempt now (sendAuthCode telegramId sent now₀ st)
        = (false, sendAuthCode telegramId sent now₀ st)) := by
  have hset : alookup telegramId (sendAuthCode telegramId sent now₀ st)
      = some { code := sent, expires := now₀ + 5 * 60 * 1000 } :=
    alookup_aset_self _ _ _
  refine ⟨?_, ?_, ?_, ?_⟩
  · intro h
    simp [verifyAuthCode, h]
  · intro h
    simp [verifyAuthCode, hset, h]
  · intro h heq
    have hlt : ¬ (now₀ + 5 * 60 * 1000 < now) := not_lt.mpr h
    simp [verifyAuthCode, hset, hlt, heq]
  · intro h hne
    have hlt : ¬ (now₀ + 5 * 60 * 1000 < now) := not_lt.mpr h
    have hne' : ¬ (sent = attempt) := fun hh => hne hh.symm
    simp [verifyAuthCode, hset, hlt, hne']

/-- Witness for C7 at concrete inputs (expired match, in-time match,
in-time mismatch, absent identity). -/
theorem verifyAuthCode_spec_witness :
    (verifyAuthCode "5" "123456" 300001 (sendAuthCode "5" "123456" 0 [])
      = (false, aerase "5" (sendAuthCode "5" "123456" 0 []))) ∧
    (verifyAuthCode "5" "123456" 300000 (sendAuthCode "5" "123456" 0 [])
      = (true, aerase "5" (sendAuthCode "5" "123456" 0 []))) ∧
    (verifyAuthCode "5" "000000" 10 (sendAuthCode "5" "123456" 0 [])
      = (false, sendAuthCode "5" "123456" 0 [])) ∧
    (verifyAuthCode "5" "123456" 10 [] = (false, [])) :=
  ⟨(verifyAuthCode_spec "5" "123456" "123456" 0 300001 []).2.1 (by decide),
   (verifyAuthCode_spec "5" "123456" "123456" 0 300000 []).2.2.1 (by decide) rfl,
   (verifyAuthCode_spec "5" "123456" "000000" 0 10 []).2.2.2 (by decide) (by decide),
   (verifyAuthCode_spec "5" "123456" "123456" 0 10 []).1 rfl⟩

/-! ## Claim C9 — read of an absent analytics date -/

/-- Claim C9: `getAnalyticsForDate` on a date with no increments returns
all-zero counters, leaves the stored analytics map unchanged, and a
second identical call returns the same result. -/
theorem getAnalyticsForDate_absent (date : String) (st : List (String × AnalyticsEntry))
    (h : alookup date st = none) :
    getAnalyticsForDate date st
      = ({ date := some date, total := 0, chatbot := 0, ai := 0, admin := 0 }, st) ∧
    getAnalyticsForDate date (getAnalyticsForDate date st).2 = getAnalyticsForDate date st := by
  constructor
  · simp [getAnalyticsForDate, h]
  · rfl

/-- Witness for C9 at a concrete date over the empty analytics map. -/
theorem getAnalyticsForDate_absent_witness :
    getAnalyticsForDate "2025-01-01" ([] : List (String × AnalyticsEntry))
      = ({ date := some "2025-01-01", total := 0, chatbot := 0, ai := 0, admin := 0 }, []) ∧
    getAnalyticsForDate "2025-01-01"
        (getAnalyticsForDate "2025-01-01" ([] : List (String × AnalyticsEntry))).2
      = getAnalyticsForDate "2025-01-01" ([] : List (String × AnalyticsEntry)) :=
  getAnalyticsForDate_absent "2025-01-01" [] rfl

/-! ## Claim C5 — AI failure absorbed -/

/-- Claim C5: when the external language-model call fails or times out,
`processMessage` returns the canned apology with confidence 0.3 and zero
tokens (it is total, so the failure never escapes), and the send handler
routes that degraded result with role `ai`. -/
theorem processMessage_error_absorbed (e message : String) (analysis : AnalyzeOut)
    (h : analysis.shouldEscalate = true ∨ analysis.matchedPattern = none) :
    processMessage true (Except.error e) message
      = { response := aiApologyReply, confidence := 3 / 10, tokensUsed := 0 } ∧
    routeReply analysis true (Except.error e) message
      = { reply := aiApologyReply, role := "ai", confidence := 3 / 10, tokensUsed := some 0 } := by
  constructor
  · rfl
  · unfold routeReply
    obtain ⟨mp, conf, esc⟩ := analysis
    rcases h with h | h
    · have hesc : esc = true := h
      subst hesc
      rfl
    · have hmp : mp = none := h
      subst hmp
      cases esc <;> rfl

/-- Witness for C5: a concrete failed call under an escalating analysis. -/
theorem processMessage_error_absorbed_witness :
    processMessage true (Except.error "timeout") "merhaba"
      = { response := aiApologyReply, confidence := 3 / 10, tokensUsed := 0 } ∧
    routeReply { matchedPattern := none, confidence := 0, shouldEscalate := true } true
        (Except.error "timeout") "merhaba"
      = { reply := aiApologyReply, role := "ai", confidence := 3 / 10, tokensUsed := some 0 } :=
  processMessage_error_absorbed "timeout" "merhaba"
    { matchedPattern := none, confidence := 0, shouldEscalate := true } (Or.inl rfl)

/-! ## Claim C2 — admin session expiry -/

/-- Claim C2 counterexample: the claim requires the session to be absent
at every `now ≥ expiresAt`, but the source checks `expiresAt < Date.now()`
strictly, so at `now = expiresAt` the session is still returned: a
session created at time 0 with ttl 100 (so `expiresAt = 100`) is returned
by a lookup at time 100. -/
theorem getAdminSession_boundary_counterexample :
    (createAdminSession id "tok" "admin" 0 100 []).1.2 = 100 ∧
    (getAdminSession id "tok" 100 (createAdminSession id "tok" "admin" 0 100 []).2).1
      = some { tokenHash := "tok", telegramId := "admin", createdAt := 0, expiresAt := 100,
               lastActivity := 100 } :=
  ⟨rfl, rfl⟩

/-- Claim C2 (amended): for a session created with ttl `T`
(`expiresAt = creation + T`), lookup with the raw token succeeds at every
`now ≤ expiresAt`, returning the metadata (token hash, identity,
timestamps — never the raw token) with `lastActivity` refreshed to `now`;
at every `now > expiresAt` the lookup reports absent and deletes the
stored entry; and any later lookup after such an expired access also
reports absent. -/
theorem adminSession_lifecycle (hash : String → String) (token telegramId : String)
    (now₀ ttlMs : ℕ) (st : List (String × Session)) (htok : token ≠ "") :
    (∀ now, now ≤ now₀ + ttlMs →
      (getAdminSession hash token now (createAdminSession hash token telegramId now₀ ttlMs st).2).1
        = some { tokenHash := hash token, telegramId := telegramId, createdAt := now₀,
                 expiresAt := now₀ + ttlMs, lastActivity := now }) ∧
    (∀ now, now₀ + ttlMs < now →
      getAdminSession hash token now (createAdminSession hash token telegramId now₀ ttlMs st).2
        = (none, aerase (hash token) (createAdminSession hash token telegramId now₀ ttlMs st).2)) ∧
    (∀ now next, now₀ + ttlMs < now →
      (getAdminSession hash token next
        (getAdminSession hash token now
          (createAdminSession hash token telegramId now₀ ttlMs st).2).2).1 = none) := by
  have hset : alookup (hash token) (createAdminSession hash token telegramId now₀ ttlMs st).2
      = some { telegramId := telegramId, createdAt := now₀, expiresAt := now₀ + ttlMs,
               lastActivity := now₀ } :=
    alookup_aset_self _ _ _
  refine ⟨?_, ?_, ?_⟩
  · intro now hnow
    have hlt : ¬ (now₀ + ttlMs < now) := not_lt.mpr hnow
    simp [getAdminSession, htok, hset, hlt]
  · intro now hnow
    simp [getAdminSession, htok, hset, hnow]
  · intro now next hnow
    have h2 : (getAdminSession hash token now
        (createAdminSession hash token telegramId now₀ ttlMs st).2).2
        = aerase (hash token) (createAdminSession hash token telegramId now₀ ttlMs st).2 := by
      simp [getAdminSession, htok, hset, hnow]
    rw [h2]
    have hnone : alookup (hash token)
        (aerase (hash token) (createAdminSession hash token telegramId now₀ ttlMs st).2) = none :=
      alookup_aerase_self _ _
    simp [getAdminSession, htok, hnone]

/-- Witness for the amended C2 theorem: creation at time 0 with ttl 100,
lookups at times 50 (valid), 101 (expired, deletes), then 102 (absent). -/
theorem adminSession_lifecycle_witness :
    ((getAdminSession id "tok" 50 (createAdminSession id "tok" "admin" 0 100 []).2).1
      = some { tokenHash := "tok", telegramId := "admin", createdAt := 0, expiresAt := 100,
               lastActivity := 50 }) ∧
    (getAdminSession id "tok" 101 (createAdminSession id "tok" "admin" 0 100 []).2
      = (none, aerase "tok" (createAdminSession id "tok" "admin" 0 100 []).2)) ∧
    ((getAdminSession id "tok" 102
        (getAdminSession id "tok" 101 (createAdminSession id "tok" "admin" 0 100 []).2).2).1
      = none) := by
  obtain ⟨h1, h2, h3⟩ := adminSession_lifecycle id "tok" "admin" 0 100 [] (by decide)
  exact ⟨h1 50 (by decide), h2 101 (by decide), h3 101 102 (by decide)⟩

/-! ## Claims C6 and C10 — analytics increments -/

theorem accumEntry_nil (e : AnalyticsEntry) : accumEntry e [] = e := rfl

theorem accumEntry_step (e : AnalyticsEntry) (r : String) (roles : List String) :
    accumEntry (stepEntry e r) roles = accumEntry e (r :: roles) := by
  by_cases h1 : r = "chatbot"
  · subst h1
    simp [stepEntry, accumEntry, List.count_cons]
    omega
  · by_cases h2 : r = "ai"
    · subst h2
      simp [stepEntry, accumEntry, List.count_cons]
      omega
    · by_cases h3 : r = "admin"
      · subst h3
        simp [stepEntry, accumEntry, List.count_cons]
        omega
      · simp [stepEntry, accumEntry, List.count_cons, h1, h2, h3]
        omega

theorem alookup_foldl_increment (date : String) :
    ∀ (roles : List String) (r : String) (st : List (String × AnalyticsEntry)),
      alookup date ((r :: roles).foldl (fun s ρ => incrementAnalytics date ρ s) st)
        = some (accumEntry ((alookup date st).getD zeroEntry) (r :: roles)) := by
  intro roles
  induction roles with
  | nil =>
    intro r st
    simp only [List.foldl]
    rw [incrementAnalytics, alookup_aset_self, ← accumEntry_step, accumEntry_nil]
  | cons r' rest ih =>
    intro r st
    have h2 : alookup date (incrementAnalytics date r st)
        = some (stepEntry ((alookup date st).getD zeroEntry) r) := by
      rw [incrementAnalytics, alookup_aset_self]
    have h1 := ih r' (incrementAnalytics date r st)
    rw [h2] at h1
    simp only [Option.getD_some] at h1
    simp only [List.foldl_cons] at h1 ⊢
    rw [h1, accumEntry_step]

/-- Claim C6: starting from a state with no entry for a date, after any
sequence of increments for that date, `getAnalyticsForDate` reports
`total` equal to the number of calls and each tracked counter equal to
the number of calls with that role; roles outside the three tracked ones
contribute only to `total`. -/
theorem incrementAnalytics_counts (date : String) (roles : List String)
    (st : List (String × AnalyticsEntry)) (h : alookup date st = none) :
    ((getAnalyticsForDate date
        (roles.foldl (fun s ρ => incrementAnalytics date ρ s) st)).1.total
      = roles.length) ∧
    ((getAnalyticsForDate date
        (roles.foldl (fun s ρ => incrementAnalytics date ρ s) st)).1.chatbot
      = roles.count "chatbot") ∧
    ((getAnalyticsForDate date
        (roles.foldl (fun s ρ => incrementAnalytics date ρ s) st)).1.ai
      = roles.count "ai") ∧
    ((getAnalyticsForDate date
        (roles.foldl (fun s ρ => incrementAnalytics date ρ s) st)).1.admin
      = roles.count "admin") := by
  cases roles with
  | nil =>
    simp [getAnalyticsForDate, h]
  | cons r rest =>
    have hf := alookup_foldl_increment date rest r st
    rw [h] at hf
    simp only [Option.getD_none] at hf
    simp only [getAnalyticsForDate]
    rw [hf]
    simp [accumEntry, zeroEntry]

/-- Witness for C6: four increments (two `chatbot`, one `ai`, one
untracked `user`) on a fresh date. -/
theorem incrementAnalytics_counts_witness :
    ((getAnalyticsForDate "2025-01-01"
        ((["chatbot", "ai", "user", "chatbot"]).foldl
          (fun s ρ => incrementAnalytics "2025-01-01" ρ s) [])).1.total = 4) ∧
    ((getAnalyticsForDate "2025-01-01"
        ((["chatbot", "ai", "user", "chatbot"]).foldl
          (fun s ρ => incrementAnalytics "2025-01-01" ρ s) [])).1.chatbot = 2) ∧
    ((getAnalyticsForDate "2025-01-01"
        ((["chatbot", "ai", "user", "chatbot"]).foldl
          (fun s ρ => incrementAnalytics "2025-01-01" ρ s) [])).1.ai = 1) ∧
    ((getAnalyticsForDate "2025-01-01"
        ((["chatbot", "ai", "user", "chatbot"]).foldl
          (fun s ρ => incrementAnalytics "2025-01-01" ρ s) [])).1.admin = 0) := by
  obtain ⟨h1, h2, h3, h4⟩ :=
    incrementAnalytics_counts "2025-01-01" ["chatbot", "ai", "user", "chatbot"] [] rfl
  refine ⟨?_, ?_, ?_, ?_⟩
  · rw [h1]; decide
  · rw [h2]; decide
  · rw [h3]; decide
  · rw [h4]; decide

/-- Claim C10: the entry returned by `getAnalyticsForDate` carries a
`date` field exactly when the date had no stored entry (the zeroed
default includes `date`; entries written by `incrementAnalytics` do not). -/
theorem getAnalyticsForDate_shape (date r : String) (roles : List String)
    (st : List (String × AnalyticsEntry)) (h : alookup date st = none) :
    ((getAnalyticsForDate date st).1.date = some date) ∧
    ((getAnalyticsForDate date
        ((r :: roles).foldl (fun s ρ => incrementAnalytics date ρ s) st)).1.date = none) := by
  constructor
  · simp [getAnalyticsForDate, h]
  · have hf := alookup_foldl_increment date roles r st
    rw [h] at hf
    simp only [Option.getD_none] at hf
    simp only [getAnalyticsForDate]
    rw [hf]
    simp [accumEntry, zeroEntry]

/-- Witness for C10: a fresh date read, and the same date read after one
increment. -/
theorem getAnalyticsForDate_shape_witness :
    ((getAnalyticsForDate "2025-01-01" ([] : List (String × AnalyticsEntry))).1.date
      = some "2025-01-01") ∧
    ((getAnalyticsForDate "2025-01-01"
        ((["chatbot"]).foldl (fun s ρ => incrementAnalytics "2025-01-01" ρ s) [])).1.date
      = none) :=
  getAnalyticsForDate_shape "2025-01-01" "chatbot" [] [] rfl

/-! ## Claim C4 — append then read -/

/-- Claim C4: a record appended by `addMessage` appears exactly once
(with its assigned id) in a subsequent `getMessagesByClient` for its
client, and every `getMessagesByClient` result is sorted in
non-decreasing timestamp order.  Freshness of the generated id is the
hypothesis `hfresh`. -/
theorem addMessage_byClient (log : List Message) (input : MessageInput) (newId : String)
    (hfresh : ∀ x ∈ log, x.id ≠ newId) :
    List.count (addMessage newId input log).1
        (getMessagesByClient (addMessage newId input log).1.clientId
          (addMessage newId input log).2) = 1 ∧
    ∀ c, List.Sorted msgLE (getMessagesByClient c (addMessage newId input log).2) := by
  constructor
  · rw [getMessagesByClient]
    rw [List.Perm.count_eq (List.perm_insertionSort msgLE _)]
    rw [show (addMessage newId input log).2 = log ++ [(addMessage newId input log).1] from rfl]
    rw [List.filter_append, List.count_append]
    have h1 : List.count (addMessage newId input log).1
        (List.filter (fun msg => msg.clientId == (addMessage newId input log).1.clientId) log)
        = 0 := by
      rw [List.count_eq_zero]
      intro hmem
      exact hfresh _ (List.mem_filter.mp hmem).1 rfl
    have h2 : List.filter (fun msg => msg.clientId == (addMessage newId input log).1.clientId)
        [(addMessage newId input log).1] = [(addMessage newId input log).1] := by
      simp
    rw [h1, h2]
    simp
  · intro c
    exact List.sorted_insertionSort msgLE _

/-- Witness for C4: one append to the empty log. -/
theorem addMessage_byClient_witness :
    List.count (addMessage "id-1" demoInput []).1
        (getMessagesByClient (addMessage "id-1" demoInput []).1.clientId
          (addMessage "id-1" demoInput []).2) = 1 ∧
    List.Sorted msgLE (getMessagesByClient "client-A" (addMessage "id-1" demoInput []).2) :=
  ⟨(addMessage_byClient [] demoInput "id-1" (by simp)).1,
   (addMessage_byClient [] demoInput "id-1" (by simp)).2 "client-A"⟩

/-! ## Claim C8 — polling -/

theorem foldr_max_mem : ∀ (l : List ℕ), l ≠ [] →
    l.foldr max 0 ∈ l ∧ ∀ t ∈ l, t ≤ l.foldr max 0 := by
  intro l
  induction l with
  | nil => intro h; exact absurd rfl h
  | cons a t ih =>
    intro _
    by_cases ht : t = []
    · subst ht
      refine ⟨?_, ?_⟩
      · simp
      · intro x hx
        simp at hx
        subst hx
        simp
    · obtain ⟨hmem, hbound⟩ := ih ht
      rcases Nat.le_total a (t.foldr max 0) with hle | hle
      · have hmax : (a :: t).foldr max 0 = t.foldr max 0 := by
          simp [Nat.max_eq_right hle]
        refine ⟨?_, ?_⟩
        · rw [hmax]; exact List.mem_cons_of_mem a hmem
        · intro x hx
          rw [hmax]
          rcases List.mem_cons.mp hx with hx | hx
          · exact hx ▸ hle
          · exact hbound x hx
      · have hmax : (a :: t).foldr max 0 = a := by
          simp [Nat.max_eq_left hle]
        refine ⟨?_, ?_⟩
        · rw [hmax]; exact List.mem_cons_self a t
        · intro x hx
          rw [hmax]
          rcases List.mem_cons.mp hx with hx | hx
          · exact le_of_eq hx
          · exact le_trans (hbound x hx) hle

/-- Claim C8: the poll handler returns exactly the stored messages of the
client with timestamp strictly greater than `after`, sorted ascending by
timestamp; `lastTimestamp` is the maximum returned timestamp when any
message is returned and the echoed `after` otherwise. -/
theorem pollResponse_spec (clientId : String) (a : ℕ) (log : List Message) :
    ((pollResponse clientId a log).1).Perm
        (log.filter (fun msg => msg.clientId == clientId && decide (a < msg.timestamp))) ∧
    List.Sorted msgLE (pollResponse clientId a log).1 ∧
    (∀ m : Message, m ∈ (pollResponse clientId a log).1
      ↔ m ∈ log ∧ m.clientId = clientId ∧ a < m.timestamp) ∧
    ((pollResponse clientId a log).1 ≠ [] →
      (pollResponse clientId a log).2 ∈ (pollResponse clientId a log).1.map (fun m => m.timestamp) ∧
      ∀ t ∈ (pollResponse clientId a log).1.map (fun m => m.timestamp),
        t ≤ (pollResponse clientId a log).2) ∧
    ((pollResponse clientId a log).1 = [] → (pollResponse clientId a log).2 = a) := by
  have hfst : (pollResponse clientId a log).1 = getMessagesAfter clientId a log := rfl
  have hsnd : (pollResponse clientId a log).2
      = if 0 < (getMessagesAfter clientId a log).length
        then ((getMessagesAfter clientId a log).map (fun m => m.timestamp)).foldr max 0
        else a := rfl
  have hperm : (getMessagesAfter clientId a log).Perm
      (log.filter (fun msg => msg.clientId == clientId && decide (a < msg.timestamp))) :=
    List.perm_insertionSort msgLE _
  refine ⟨hperm, List.sorted_insertionSort msgLE _, ?_, ?_, ?_⟩
  · intro m
    rw [hfst, hperm.mem_iff, List.mem_filter]
    simp
  · intro hne
    rw [hfst] at hne
    have hlen : 0 < (getMessagesAfter clientId a log).length := List.length_pos.mpr hne
    have hmapne : (getMessagesAfter clientId a log).map (fun m => m.timestamp) ≠ [] := by
      simpa using hne
    obtain ⟨hmem, hbound⟩ := foldr_max_mem _ hmapne
    rw [hfst, hsnd, if_pos hlen]
    exact ⟨hmem, hbound⟩
  · intro hempty
    rw [hfst] at hempty
    rw [hsnd, hempty]
    simp

/-- Witness for C8: a poll returning two messages (maximum timestamp 20)
and a poll for an unknown client echoing `after`. -/
theorem pollResponse_spec_witness :
    ((pollResponse "c" 5 demoLog).2 ∈ (pollResponse "c" 5 demoLog).1.map (fun m => m.timestamp) ∧
      ∀ t ∈ (pollResponse "c" 5 demoLog).1.map (fun m => m.timestamp),
        t ≤ (pollResponse "c" 5 demoLog).2) ∧
    (pollResponse "zzz" 5 demoLog).2 = 5 :=
  ⟨(pollResponse_spec "c" 5 demoLog).2.2.2.1 (by decide),
   (pollResponse_spec "zzz" 5 demoLog).2.2.2.2 (by decide)⟩

/-! ## Claim C1 — matcher equals the reference scorer -/

theorem foldr_max_nonneg : ∀ (l : List ℚ), 0 ≤ l.foldr max 0 := by
  intro l
  induction l with
  | nil => exact le_refl 0
  | cons a t ih =>
    rw [List.foldr_cons]
    exact le_trans ih (le_max_right a _)

theorem le_foldr_max_rat : ∀ (l : List ℚ) (x : ℚ), x ∈ l → x ≤ l.foldr max 0 := by
  intro l
  induction l with
  | nil => intro x hx; exact absurd hx (List.not_mem_nil x)
  | cons a t ih =>
    intro x hx
    rw [List.foldr_cons]
    rcases List.mem_cons.mp hx with hx | hx
    · subst hx
      exact le_max_left x _
    · exact le_trans (ih x hx) (le_max_right a _)

theorem analyzeLoop_eq (message : String) :
    ∀ (l : List Pattern) (best : Option (Pattern × ℚ)) (highest : ℚ), 0 ≤ highest →
      analyzeLoop message l best highest =
        if highest < maxScore l message
        then (((matchedPatterns l message).find?
                (fun p => decide (patternScore message p = maxScore l message))).map
                  (fun q => (q, maxScore l message)),
              maxScore l message)
        else (best, highest) := by
  intro l
  induction l with
  | nil =>
    intro best highest hh
    rw [show maxScore [] message = 0 from rfl, if_neg (not_lt.mpr hh)]
    rfl
  | cons p rest ih =>
    intro best highest hh
    by_cases h0 : 0 < matchCount message p
    · have hm : matchedPatterns (p :: rest) message = p :: matchedPatterns rest message := by
        simp [matchedPatterns, h0]
      have hs : maxScore (p :: rest) message
          = max (patternScore message p) (maxScore rest message) := by
        simp [maxScore, hm]
      have hl : analyzeLoop message (p :: rest) best highest
          = if highest < patternScore message p
            then analyzeLoop message rest (some (p, patternScore message p)) (patternScore message p)
            else analyzeLoop message rest best highest := by
        simp [analyzeLoop, h0]
      by_cases hlt : highest < patternScore message p
      · rw [hl, if_pos hlt]
        have hconf : (0:ℚ) ≤ patternScore message p := le_of_lt (lt_of_le_of_lt hh hlt)
        rw [ih _ (patternScore message p) hconf]
        by_cases hc : patternScore message p < maxScore rest message
        · rw [if_pos hc]
          have hmax : maxScore (p :: rest) message = maxScore rest message := by
            rw [hs]; exact max_eq_right (le_of_lt hc)
          have hcond : highest < maxScore (p :: rest) message := by
            rw [hmax]; exact lt_trans hlt hc
          rw [if_pos hcond, hmax, hm]
          have hne : (decide (patternScore message p = maxScore rest message)) = false := by
            simp [ne_of_lt hc]
          simp [List.find?, hne]
        · rw [if_neg hc]
          have hge : maxScore rest message ≤ patternScore message p := not_lt.mp hc
          have hmax : maxScore (p :: rest) message = patternScore message p := by
            rw [hs]; exact max_eq_left hge
          have hcond : highest < maxScore (p :: rest) message := by
            rw [hmax]; exact hlt
          rw [if_pos hcond, hmax, hm]
          simp [List.find?]
      · rw [hl, if_neg hlt]
        rw [ih best highest hh]
        by_cases hr : highest < maxScore rest message
        · rw [if_pos hr]
          have hcond : highest < maxScore (p :: rest) message := by
            rw [hs]; exact lt_max_iff.mpr (Or.inr hr)
          rw [if_pos hcond]
          have hple : patternScore message p < maxScore rest message :=
            lt_of_le_of_lt (not_lt.mp hlt) hr
          have hmax : maxScore (p :: rest) message = maxScore rest message := by
            rw [hs]; exact max_eq_right (le_of_lt hple)
          rw [hmax, hm]
          have hne : (decide (patternScore message p = maxScore rest message)) = false := by
            simp [ne_of_lt hple]
          simp [List.find?, hne]
        · rw [if_neg hr]
          have hcond : ¬ highest < maxScore (p :: rest) message := by
            rw [hs]
            intro hcon
            rcases lt_max_iff.mp hcon with hx | hx
            · exact hlt hx
            · exact hr hx
          rw [if_neg hcond]
    · have hm : matchedPatterns (p :: rest) message = matchedPatterns rest message := by
        simp [matchedPatterns, h0]
      have hs : maxScore (p :: rest) message = maxScore rest message := by
        simp [maxScore, hm]
      have hl : analyzeLoop message (p :: rest) best highest
          = analyzeLoop message rest best highest := by
        simp [analyzeLoop, h0]
      rw [hl, ih best highest hh, hs, hm]

/-- Claim C1: for every knowledge base whose patterns have non-empty
keyword lists and confidence in (0,1], and every message,
`analyzeMessage` equals the reference scorer `specAnalyze`: the match is
the maximum-scoring pattern with positive keyword-containment count
(first in list order on ties, absent when none matches), the confidence
is that maximum score (0 when none), and escalation holds exactly when
the confidence is below the fixed threshold 0.7. -/
theorem analyzeMessage_eq_specAnalyze (knowledgeBase : List Pattern) (message : String)
    (h : ∀ p ∈ knowledgeBase, p.keywords ≠ [] ∧ 0 < p.confidence ∧ p.confidence ≤ 1) :
    analyzeMessage knowledgeBase message = specAnalyze knowledgeBase message := by
  have hloop := analyzeLoop_eq message knowledgeBase none 0 le_rfl
  by_cases hpos : 0 < maxScore knowledgeBase message
  · rw [if_pos hpos] at hloop
    simp only [analyzeMessage, specAnalyze]
    rw [hloop]
    cases hf : (matchedPatterns knowledgeBase message).find?
        (fun p => decide (patternScore message p = maxScore knowledgeBase message)) with
    | none => simp [hf]
    | some q =>
      have hq' : patternScore message q = maxScore knowledgeBase message := by
        simpa using List.find?_some hf
      simp [hf, hq']
  · have hz : maxScore knowledgeBase message = 0 :=
      le_antisymm (not_lt.mp hpos) (foldr_max_nonneg _)
    have hmt : matchedPatterns knowledgeBase message = [] := by
      rcases hq : matchedPatterns knowledgeBase message with _ | ⟨q, qs⟩
      · rfl
      · exfalso
        have hqmem : q ∈ matchedPatterns knowledgeBase message := by
          rw [hq]; exact List.mem_cons_self q qs
        have hqm := List.mem_filter.mp hqmem
        obtain ⟨hkw, hcpos, _⟩ := h q hqm.1
        have hcnt : 0 < matchCount message q := of_decide_eq_true hqm.2
        have hqs : 0 < patternScore message q := by
          apply mul_pos
          · apply div_pos
            · exact_mod_cast hcnt
            · exact_mod_cast List.length_pos.mpr hkw
          · exact hcpos
        have hle : patternScore message q ≤ maxScore knowledgeBase message :=
          le_foldr_max_rat _ _ (List.mem_map_of_mem (patternScore message) hqmem)
        rw [hz] at hle
        exact absurd (lt_of_lt_of_le hqs hle) (lt_irrefl 0)
    rw [if_neg hpos] at hloop
    simp only [analyzeMessage, specAnalyze]
    rw [hloop, hmt, hz]
    simp

/-- Witness for C1: the one-pattern demo knowledge base (confidence 1,
non-empty keywords) on a concrete message. -/
theorem analyzeMessage_eq_specAnalyze_witness :
    (∀ p ∈ demoKb, p.keywords ≠ [] ∧ 0 < p.confidence ∧ p.confidence ≤ 1) ∧
    analyzeMessage demoKb "Merhaba dünya" = specAnalyze demoKb "Merhaba dünya" :=
  ⟨by decide, analyzeMessage_eq_specAnalyze demoKb "Merhaba dünya" (by decide)⟩
